import Mathlib

/-!
# AudioDeviceSwitch

A shallow embedding of `AudioDeviceSwitch.cpp`, the command-line switcher of the
default sound playback device, together with theorems about its behaviour.

The program talks to the host through COM interfaces (`IMMDeviceEnumerator`,
`IMMDeviceCollection`, `IMMDevice`, `IPropertyStore`, `IPolicyConfigVista`).  Their
implementation is the operating system's; here each interface is a record holding what
every method returns, so that the program becomes a pure function of the host and of
`argv`.  The interfaces are parametrised by the kind of value a successful read of the
friendly name yields: always a string (`Host`), or a string or a value that is not a
string (`HostOf (Option WString)`), on which the program assigns a null pointer to the
name.  The effects of a run (text reaching the streams, calls of the setter) are collected
in an explicit `Effects` value that is passed along; text inserted into `std::wcout`
reaches the output through the conversion of the stream, which the host decides for the
characters outside ASCII.
-/

namespace AudioDeviceSwitch

/-! ## Host interfaces -/

/-- Wide strings (`std::wstring`, `LPWSTR`). -/
abbrev WString := String

/-- A COM result code: a signed integer, negative on failure. -/
abbrev HRESULT := Int

/-- The `SUCCEEDED` test of a result code. -/
def SUCCEEDED (hr : HRESULT) : Bool := decide (0 ≤ hr)

/-- The `FAILED` test of a result code. -/
def FAILED (hr : HRESULT) : Bool := decide (hr < 0)

/-- Usage roles of an endpoint. -/
inductive ERole where
  | eConsole
  | eMultimedia
  | eCommunications
  deriving DecidableEq, Repr

/-- Direction of an endpoint. -/
inductive EDataFlow where
  | eRender
  | eCapture
  | eAll
  deriving DecidableEq, Repr

/-- The state mask passed to `EnumAudioEndpoints`. -/
def DEVICE_STATE_ACTIVE : Nat := 1

/-- The values a successful `GetValue` may leave in the `PROPVARIANT`: `pwszVal` is the
string the member of that name points to, `none` when it is a null pointer (the value is
not a string, as for a property that is absent).  With `ν := WString` the value is always
a string; with `ν := Option WString` it may be a string or not. -/
class PropVariant (ν : Type) where
  pwszVal : ν → Option WString

instance : PropVariant WString := ⟨some⟩

instance : PropVariant (Option WString) := ⟨id⟩

/-- A property store: the result of `GetValue(PKEY_Device_FriendlyName, _)` and the value
it stores (meaningful on success only). -/
structure IPropertyStore (ν : Type) where
  GetValue : HRESULT × ν

/-- An endpoint device: the result of `GetId` with the id it yields, and the result of
`OpenPropertyStore(STGM_READ, _)` with the store it yields (both meaningful on success
only). -/
structure IMMDevice (ν : Type) where
  GetId : HRESULT × WString
  OpenPropertyStore : HRESULT × IPropertyStore ν

/-- A device collection: the count `GetCount` stores and the result of `Item(i, _)`. -/
structure IMMDeviceCollection (ν : Type) where
  GetCount : Nat
  Item : Nat → HRESULT × IMMDevice ν

/-- The device enumerator. -/
structure IMMDeviceEnumerator (ν : Type) where
  GetDefaultAudioEndpoint : EDataFlow → ERole → HRESULT × IMMDevice ν
  EnumAudioEndpoints : EDataFlow → Nat → HRESULT × IMMDeviceCollection ν

/-- The policy configuration client. -/
structure IPolicyConfigVista where
  SetDefaultEndpoint : WString → ERole → HRESULT

/-- The host as one run of the program sees it: the result of `CoInitialize(NULL)` and of
the two `CoCreateInstance` calls, and what the conversion of `std::wcout` (no locale is
set) makes of a wide character outside ASCII: the narrow text it writes, `none` when it
cannot convert the character. -/
structure HostOf (ν : Type) where
  CoInitialize : HRESULT
  CoCreateInstance_MMDeviceEnumerator : HRESULT × IMMDeviceEnumerator ν
  CoCreateInstance_CPolicyConfigVistaClient : HRESULT × IPolicyConfigVista
  wcout_narrow : Char → Option String := fun _ => none

/-- A host on which a successful read of the friendly name always yields a string. -/
abbrev Host := HostOf WString

/-! ## Effects and outcomes of a run -/

/-- What a run did: the text that reached standard output (through `std::cout` and
`std::wcout`), whether `std::wcout` has failed on a character it cannot convert, the text
written to `std::cerr`, the ids `SetDefaultAudioPlaybackDevice` was called with, and the
`SetDefaultEndpoint` requests that reached the policy client, all in order. -/
structure Effects where
  out : String := ""
  err : String := ""
  setterCalls : List WString := []
  policyCalls : List (WString × ERole) := []
  wcoutBad : Bool := false
  deriving DecidableEq, Repr

/-- The exceptions `std::stoi` throws. -/
inductive StoiError where
  | invalid_argument
  | out_of_range
  deriving DecidableEq, Repr

/-- How a run ends: `wmain` returns a status, an exception leaves `wmain` uncaught
(`std::terminate`), an iterator at the end position is dereferenced, or a null pointer is
assigned to a `std::wstring`. -/
inductive Outcome where
  | returned (status : Int)
  | uncaught (e : StoiError)
  | endDereferenced
  | nullAssigned
  deriving DecidableEq, Repr

/-! ## The standard library pieces the program calls -/

/-- The characters `iswspace` accepts in the "C" locale. -/
def iswspace (c : Char) : Bool :=
  c.toNat = 32 || (9 ≤ c.toNat && c.toNat ≤ 13)

/-- The value of a run of decimal digits. -/
def digitsValue (ds : List Char) : Nat :=
  ds.foldl (fun acc c => 10 * acc + (c.toNat - 48)) 0

/-- The behaviour of `std::stoi(const std::wstring&)` (base 10, no position requested), as
the C++ standard defines it through `wcstol`: leading white space is skipped, one optional
sign is read, then the longest run of decimal digits; what follows is ignored.  Without a
digit it throws `std::invalid_argument`; a value outside the range of `int` (32 bits)
throws `std::out_of_range`. -/
def stoi (s : WString) : Except StoiError Int :=
  let cs := s.data.dropWhile iswspace
  let negative := cs.head? = some '-'
  let body := if cs.head? = some '-' ∨ cs.head? = some '+' then cs.tail else cs
  let ds := body.takeWhile Char.isDigit
  if ds = [] then .error .invalid_argument
  else
    let v : Int := if negative then -(digitsValue ds : Int) else (digitsValue ds : Int)
    if v < -2147483648 ∨ 2147483647 < v then .error .out_of_range else .ok v

/-- The behaviour of `std::find_if` on a vector: the position of the first element
satisfying `pred`, the end position (the size) when there is none. -/
def find_if {α : Type} (pred : α → Bool) : List α → Nat
  | [] => 0
  | a :: rest => if pred a then 0 else find_if pred rest + 1

/-- What `std::wcout` makes of one wide character: an ASCII character is written as it
is, any other character as the conversion of the host decides. -/
def wcoutConvert (narrow : Char → Option String) (c : Char) : Option String :=
  if c.toNat < 128 then some (String.singleton c) else narrow c

/-- One character put to `std::wcout`: nothing happens on a failed stream; a character
that cannot be converted is not written and makes the stream fail. -/
def wcoutPut (narrow : Char → Option String) (fx : Effects) (c : Char) : Effects :=
  if fx.wcoutBad then fx
  else
    match wcoutConvert narrow c with
    | some t => { fx with out := fx.out ++ t }
    | none => { fx with wcoutBad := true }

/-- The insertion `std::wcout << s` of a string (wide, or narrow and widened), character
by character. -/
def wcoutWrite (narrow : Char → Option String) (fx : Effects) (s : String) : Effects :=
  s.data.foldl (wcoutPut narrow) fx

/-! ## The program -/

/-- `SetDefaultAudioPlaybackDevice`: create the policy client and, when that succeeds, ask
it to make `devID` the default endpoint of the console role.  The call is recorded, and so
is the request when it is made. -/
def SetDefaultAudioPlaybackDevice {ν : Type} (host : HostOf ν) (devID : WString)
    (fx : Effects) : HRESULT × Effects :=
  let reserved := ERole.eConsole
  let fx := { fx with setterCalls := fx.setterCalls ++ [devID] }
  let hr := host.CoCreateInstance_CPolicyConfigVistaClient.1
  if SUCCEEDED hr then
    (host.CoCreateInstance_CPolicyConfigVistaClient.2.SetDefaultEndpoint devID reserved,
      { fx with policyCalls := fx.policyCalls ++ [(devID, reserved)] })
  else (hr, fx)

/-- `getDefaultDeviceId`: the id of the default render endpoint of the multimedia role,
the empty string when the endpoint or its id cannot be obtained. -/
def getDefaultDeviceId {ν : Type} (pEnum : IMMDeviceEnumerator ν) : WString :=
  let id : WString := ""
  let r := pEnum.GetDefaultAudioEndpoint .eRender .eMultimedia
  if SUCCEEDED r.1 then
    if SUCCEEDED r.2.GetId.1 then r.2.GetId.2 else id
  else id

/-- `enumDevices`: call `cb` on every active render endpoint whose `Item` call succeeds,
in index order.  The callback mutates captured state, passed here explicitly. -/
def enumDevices {ν σ : Type} (pEnum : IMMDeviceEnumerator ν) (cb : σ → IMMDevice ν → σ)
    (s : σ) : σ :=
  let r := pEnum.EnumAudioEndpoints .eRender DEVICE_STATE_ACTIVE
  if SUCCEEDED r.1 then
    let count := r.2.GetCount
    (List.range count).foldl
      (fun s i => if SUCCEEDED (r.2.Item i).1 then cb s (r.2.Item i).2 else s) s
  else s

/-- A device record. -/
structure DeviceInfo where
  name : WString := ""
  id : WString := ""
  deriving DecidableEq, Repr

/-- `getDeviceInfo`: name and id are filled in only when the id, the property store and
the friendly name were all obtained; when one of the calls fails the record is returned
as constructed, with both strings empty.  The member `pwszVal` is assigned to the name
without a look at the type of the value: when it is a null pointer there is no record
(`none`), the run ends there. -/
def getDeviceInfo {ν : Type} [PropVariant ν] (dev : IMMDevice ν) : Option DeviceInfo :=
  let info : DeviceInfo := {}
  if SUCCEEDED dev.GetId.1 then
    if SUCCEEDED dev.OpenPropertyStore.1 then
      if SUCCEEDED dev.OpenPropertyStore.2.GetValue.1 then
        match PropVariant.pwszVal dev.OpenPropertyStore.2.GetValue.2 with
        | some friendlyName => some { info with name := friendlyName, id := dev.GetId.2 }
        | none => none
      else some info
    else some info
  else some info

/-- The command-line options. -/
structure Options where
  index : Int := -1
  next : Bool := false
  special : Bool := false
  list : Bool := false
  help : Bool := false
  deriving DecidableEq, Repr

/-- The constructor `Options::Options(argc, argv)`, with `argc` the length of `argv`.  An
exception thrown by `std::stoi` propagates. -/
def Options.Options (argv : List WString) : Except StoiError AudioDeviceSwitch.Options :=
  let o : AudioDeviceSwitch.Options := {}
  if argv.length = 2 then
    let argument := argv.getD 1 ""
    if argument = "-n" ∨ argument = "/n" then .ok { o with next := true }
    else if argument = "-l" ∨ argument = "/l" then .ok { o with list := true }
    else
      match stoi argument with
      | .error e => .error e
      | .ok index =>
        if 0 ≤ index then .ok { o with index := index, special := true }
        else .ok { o with index := index, help := true }
  else .ok { o with help := true }

/-- The usage text. -/
def usageText : String :=
  "Default sound device switcher.\n" ++
  "-n              select next\n" ++
  "<index>         select device number <index>\n" ++
  "-l              list all devices\n"

/-- The loop of the `list` request: five insertions into `std::wcout` per device, `index`
counting up. -/
def listLoop (narrow : Char → Option String) (defaultId : WString) :
    List DeviceInfo → Nat → Effects → Effects
  | [], _, fx => fx
  | info :: rest, index, fx =>
    let default := info.id == defaultId
    let fx := wcoutWrite narrow fx (toString index)
    let fx := wcoutWrite narrow fx ": "
    let fx := wcoutWrite narrow fx info.name
    let fx := wcoutWrite narrow fx (if default then " [default]" else "")
    let fx := wcoutWrite narrow fx "\n"
    listLoop narrow defaultId rest (index + 1) fx

/-- The position the `next` request selects: one past the first device whose id is the
default id, the first position when there is no such device or it is the last one. -/
def nextPosition (infos : List DeviceInfo) (defaultId : WString) : Nat :=
  let it := find_if (fun a => a.id == defaultId) infos
  if it = infos.length ∨ it + 1 = infos.length then 0 else it + 1

/-- The `next` request and the end of `wmain`. -/
def serveNext {ν : Type} (host : HostOf ν) (opts : Options) (infos : List DeviceInfo)
    (defaultId : WString) (fx : Effects) : Effects × Outcome :=
  if opts.next then
    match infos[nextPosition infos defaultId]? with
    | none => (fx, .endDereferenced)
    | some d => ((SetDefaultAudioPlaybackDevice host d.id fx).2, .returned 0)
  else (fx, .returned 0)

/-- The part of `wmain` below the comment `Serve request`.  The cast of `opts.index` to
`size_t` is evaluated only for a non-negative index, where it keeps the value. -/
def serveRequest {ν : Type} (host : HostOf ν) (opts : Options) (infos : List DeviceInfo)
    (defaultId : WString) : Effects × Outcome :=
  let fx : Effects := {}
  let fx := if opts.list then listLoop host.wcout_narrow defaultId infos 0 fx else fx
  if opts.special then
    if opts.index < 0 ∨ infos.length ≤ opts.index.toNat then
      ({ fx with err := fx.err ++ "Invalid index, see --help\n" }, .returned (-1))
    else
      match infos[opts.index.toNat]? with
      | none => (fx, .endDereferenced)
      | some d => serveNext host opts infos defaultId
          (SetDefaultAudioPlaybackDevice host d.id fx).2
  else serveNext host opts infos defaultId fx

/-- The vector `infos` while the devices are enumerated, and whether a null friendly name
has been assigned, which ends the run. -/
structure Enumeration where
  infos : List DeviceInfo := []
  nullName : Bool := false
  deriving DecidableEq, Repr

/-- The callback `wmain` gives to `enumDevices`: push the record of the device. -/
def pushInfo {ν : Type} [PropVariant ν] (st : Enumeration) (dev : IMMDevice ν) :
    Enumeration :=
  if st.nullName then st
  else
    match getDeviceInfo dev with
    | some info => { st with infos := st.infos ++ [info] }
    | none => { st with nullName := true }

/-- The enumeration `wmain` runs. -/
def enumerate {ν : Type} [PropVariant ν] (pEnum : IMMDeviceEnumerator ν) : Enumeration :=
  enumDevices pEnum pushInfo {}

/-- The device list `wmain` builds: the records pushed by the callback. -/
def buildInfos {ν : Type} [PropVariant ν] (pEnum : IMMDeviceEnumerator ν) :
    List DeviceInfo :=
  (enumerate pEnum).infos

/-- The program: `wmain(argc, argv)` on a host. -/
def wmain {ν : Type} [PropVariant ν] (host : HostOf ν) (argv : List WString) :
    Effects × Outcome :=
  match Options.Options argv with
  | .error e => ({}, .uncaught e)
  | .ok opts =>
    if opts.help then ({ out := usageText }, .returned 0)
    else if FAILED host.CoInitialize then
      ({ err := "Unable to initialize COM" }, .returned (-1))
    else if FAILED host.CoCreateInstance_MMDeviceEnumerator.1 then
      ({ err := "Unable to initialize device enumerator" }, .returned (-1))
    else
      let pEnum := host.CoCreateInstance_MMDeviceEnumerator.2
      if (enumerate pEnum).nullName then ({}, .nullAssigned)
      else
        let infos := buildInfos pEnum
        let defaultId := getDefaultDeviceId pEnum
        serveRequest host opts infos defaultId

/-! ## Concrete hosts used in examples -/

/-- A device whose id and friendly name can be read. -/
def goodDevice (name id : WString) : IMMDevice WString :=
  { GetId := (0, id), OpenPropertyStore := (0, { GetValue := (0, name) }) }

/-- A device whose `GetId` fails. -/
def badDevice : IMMDevice WString :=
  { GetId := (-1, ""), OpenPropertyStore := (0, { GetValue := (0, "Ghost") }) }

/-- A host on which every start-up call succeeds, with the given endpoints and the given
result of the default endpoint query. -/
def hostOf (devs : List (IMMDevice WString)) (dflt : HRESULT × IMMDevice WString) : Host :=
  { CoInitialize := 0
    CoCreateInstance_MMDeviceEnumerator := (0,
      { GetDefaultAudioEndpoint := fun _ _ => dflt
        EnumAudioEndpoints := fun _ _ => (0,
          { GetCount := devs.length, Item := fun i => (0, devs.getD i badDevice) }) })
    CoCreateInstance_CPolicyConfigVistaClient := (0, { SetDefaultEndpoint := fun _ _ => 0 }) }

/-- Three endpoints, the second one the default. -/
def scenarioHost : Host :=
  hostOf [goodDevice "Speakers" "id-a", goodDevice "Headphones" "id-b",
    goodDevice "HDMI" "id-c"] (0, goodDevice "Headphones" "id-b")

/-- A host with no endpoint at all, on which the default endpoint query fails. -/
def emptyHost : Host := hostOf [] (-1, badDevice)

/-- A host with two endpoints whose id cannot be read, on which the default endpoint query
fails. -/
def ghostHost : Host := hostOf [badDevice, badDevice] (-1, badDevice)

/-- A host whose first endpoint cannot be read and whose second endpoint can. -/
def mixedHost : Host :=
  hostOf [badDevice, goodDevice "Speakers" "id-a"] (0, goodDevice "Speakers" "id-a")

/-- The three endpoints of `scenarioHost`, the third one the default. -/
def scenarioHostAfter : Host :=
  hostOf [goodDevice "Speakers" "id-a", goodDevice "Headphones" "id-b",
    goodDevice "HDMI" "id-c"] (0, goodDevice "HDMI" "id-c")

/-- Two endpoints whose id cannot be read and a readable one, which is the default. -/
def ghostsAndHeadphonesHost : Host :=
  hostOf [badDevice, badDevice, goodDevice "Headphones" "id-b"]
    (0, goodDevice "Headphones" "id-b")

/-- A conversion that writes six Cyrillic letters as Latin ones and fails on every other
character outside ASCII. -/
def transliterate (c : Char) : Option String :=
  (("Динамк".data.zip "Dinamk".data).lookup c).map String.singleton

/-- An endpoint with a Cyrillic name and the default endpoint `HDMI`, on a host whose
stream transliterates. -/
def cyrillicHost : Host :=
  { hostOf [goodDevice "Динамики" "id-a", goodDevice "HDMI" "id-c"]
      (0, goodDevice "HDMI" "id-c") with wcout_narrow := transliterate }

/-- The same endpoints on a host whose stream cannot convert any character outside
ASCII. -/
def cyrillicHostStrict : Host :=
  hostOf [goodDevice "Динамики" "id-a", goodDevice "HDMI" "id-c"]
    (0, goodDevice "HDMI" "id-c")

/-- A device whose reads all succeed, the friendly name being the given value. -/
def deviceWith (name : Option WString) (id : WString) : IMMDevice (Option WString) :=
  { GetId := (0, id), OpenPropertyStore := (0, { GetValue := (0, name) }) }

/-- A device whose property store cannot be opened. -/
def lockedDevice (id : WString) : IMMDevice (Option WString) :=
  { GetId := (0, id), OpenPropertyStore := (-1, { GetValue := (-1, none) }) }

/-- A host on which every start-up call succeeds and whose friendly names need not be
strings, with the given endpoints and the given result of the default endpoint query. -/
def hostOfValues (devs : List (IMMDevice (Option WString)))
    (dflt : HRESULT × IMMDevice (Option WString)) : HostOf (Option WString) :=
  { CoInitialize := 0
    CoCreateInstance_MMDeviceEnumerator := (0,
      { GetDefaultAudioEndpoint := fun _ _ => dflt
        EnumAudioEndpoints := fun _ _ => (0,
          { GetCount := devs.length, Item := fun i => (0, devs.getD i (lockedDevice "")) }) })
    CoCreateInstance_CPolicyConfigVistaClient := (0, { SetDefaultEndpoint := fun _ _ => 0 }) }

/-- A host whose second endpoint answers the friendly name with a value that is not a
string. -/
def namelessHost : HostOf (Option WString) :=
  hostOfValues [deviceWith (some "Speakers") "id-a", deviceWith none "id-b"]
    (0, deviceWith (some "Speakers") "id-a")

/-- A host whose first endpoint is readable and whose second endpoint has a property
store that cannot be opened. -/
def lockedHost : HostOf (Option WString) :=
  hostOfValues [deviceWith (some "Speakers") "id-a", lockedDevice "id-b"]
    (0, deviceWith (some "Speakers") "id-a")

/-! ## Notions used to state the properties -/

/-- The devices `enumDevices` hands to its callback, in order. -/
def enumerated {ν : Type} (pEnum : IMMDeviceEnumerator ν) : List (IMMDevice ν) :=
  enumDevices pEnum (fun devs dev => devs ++ [dev]) []

/-- The calls `GetId`, `OpenPropertyStore` and `GetValue` on the device all succeed. -/
def readable {ν : Type} (dev : IMMDevice ν) : Bool :=
  SUCCEEDED dev.GetId.1 && SUCCEEDED dev.OpenPropertyStore.1 &&
    SUCCEEDED dev.OpenPropertyStore.2.GetValue.1

/-- The friendly name the device yields, empty when the value is not a string. -/
def friendlyNameOf {ν : Type} [PropVariant ν] (dev : IMMDevice ν) : WString :=
  (PropVariant.pwszVal dev.OpenPropertyStore.2.GetValue.2).getD ""

/-- The device list as the specification words it: the enumerated devices whose id and
name were both read, in enumeration order, the others skipped. -/
def skippingDeviceList {ν : Type} [PropVariant ν] (pEnum : IMMDeviceEnumerator ν) :
    List DeviceInfo :=
  ((enumerated pEnum).filter
      (fun dev => readable dev &&
        (PropVariant.pwszVal dev.OpenPropertyStore.2.GetValue.2).isSome)).map
    (fun dev => { name := friendlyNameOf dev, id := dev.GetId.2 })

/-- The stream passes the character on unchanged. -/
def passedUnchanged (narrow : Char → Option String) (c : Char) : Prop :=
  wcoutConvert narrow c = some (String.singleton c)

/-- The start-up calls succeed: COM is initialised and the device enumerator is created,
so that the run enumerates the devices. -/
def StartsUp {ν : Type} (host : HostOf ν) : Prop :=
  SUCCEEDED host.CoInitialize = true ∧
    SUCCEEDED host.CoCreateInstance_MMDeviceEnumerator.1 = true

/-! ## Lemmas on the library pieces -/

theorem FAILED_eq_not_SUCCEEDED (hr : HRESULT) : FAILED hr = !SUCCEEDED hr := by
  unfold FAILED SUCCEEDED
  by_cases h : (0 : Int) ≤ hr
  · have h2 : ¬ hr < (0 : Int) := Int.not_lt.mpr h
    simp [h, h2]
  · have h2 : hr < (0 : Int) := Int.not_le.mp h
    simp [h, h2]

theorem join_cons (a : String) (l : List String) : String.join (a :: l) = a ++ String.join l := by
  apply String.ext
  simp [String.data_join]

theorem find_if_le {α : Type} (pred : α → Bool) (l : List α) : find_if pred l ≤ l.length := by
  induction l with
  | nil => simp [find_if]
  | cons a rest ih =>
    simp only [find_if, List.length_cons]
    split <;> omega

/-- When no element satisfies the predicate, `find_if` yields the end position. -/
theorem find_if_eq_length {α : Type} (pred : α → Bool) (l : List α)
    (h : ∀ a ∈ l, pred a = false) : find_if pred l = l.length := by
  induction l with
  | nil => simp [find_if]
  | cons a rest ih =>
    have ha : pred a = false := h a (List.mem_cons_self a rest)
    have hr : ∀ b ∈ rest, pred b = false := fun b hb => h b (List.mem_cons_of_mem a hb)
    simp [find_if, ha, ih hr]

/-- The position `find_if` yields is that of the first element satisfying the predicate. -/
theorem find_if_eq_first {α : Type} (pred : α → Bool) (l : List α) (i : Nat) (a : α)
    (hi : l[i]? = some a) (ha : pred a = true)
    (hfirst : ∀ j b, j < i → l[j]? = some b → pred b = false) : find_if pred l = i := by
  induction l generalizing i with
  | nil => simp at hi
  | cons x rest ih =>
    cases i with
    | zero =>
      simp at hi
      subst hi
      simp [find_if, ha]
    | succ k =>
      have hx : pred x = false := hfirst 0 x (Nat.succ_pos k) (by simp)
      have hk : rest[k]? = some a := by simpa using hi
      have hrest : ∀ j b, j < k → rest[j]? = some b → pred b = false := by
        intro j b hj hb
        exact hfirst (j + 1) b (by omega) (by simpa using hb)
      simp [find_if, hx, ih k hk hrest]

/-- The flags are not numbers: `std::stoi` throws on each of them. -/
theorem stoi_flag (arg : WString) (K : Int) (h : stoi arg = .ok K) :
    arg ≠ "-n" ∧ arg ≠ "/n" ∧ arg ≠ "-l" ∧ arg ≠ "/l" := by
  have e1 : stoi "-n" = .error .invalid_argument := rfl
  have e2 : stoi "/n" = .error .invalid_argument := rfl
  have e3 : stoi "-l" = .error .invalid_argument := rfl
  have e4 : stoi "/l" = .error .invalid_argument := rfl
  refine ⟨?_, ?_, ?_, ?_⟩ <;> intro e <;> subst e
  · rw [e1] at h; cases h
  · rw [e2] at h; cases h
  · rw [e3] at h; cases h
  · rw [e4] at h; cases h

/-! ## Lemmas on the output stream -/

theorem passedUnchanged_of_ascii (narrow : Char → Option String) (c : Char)
    (h : c.toNat < 128) : passedUnchanged narrow c := by
  simp [passedUnchanged, wcoutConvert, h]

/-- Inserting a concatenation is inserting its parts one after the other. -/
theorem wcoutWrite_append (narrow : Char → Option String) (fx : Effects) (a b : String) :
    wcoutWrite narrow fx (a ++ b) = wcoutWrite narrow (wcoutWrite narrow fx a) b := by
  simp [wcoutWrite, String.data_append, List.foldl_append]

theorem foldl_wcoutPut_passed (narrow : Char → Option String) (cs : List Char)
    (fx : Effects) (hbad : fx.wcoutBad = false)
    (h : ∀ c ∈ cs, passedUnchanged narrow c) :
    cs.foldl (wcoutPut narrow) fx = { fx with out := fx.out ++ String.mk cs } := by
  induction cs generalizing fx with
  | nil =>
    have : fx.out ++ String.mk [] = fx.out := by
      apply String.ext
      simp
    simp [this]
  | cons c cs ih =>
    have hc : wcoutConvert narrow c = some (String.singleton c) := h c (List.mem_cons_self c cs)
    have hput : wcoutPut narrow fx c = { fx with out := fx.out ++ String.singleton c } := by
      simp [wcoutPut, hbad, hc]
    rw [List.foldl_cons, hput,
      ih { fx with out := fx.out ++ String.singleton c } hbad
        (fun d hd => h d (List.mem_cons_of_mem c hd))]
    have : fx.out ++ String.singleton c ++ String.mk cs = fx.out ++ String.mk (c :: cs) := by
      apply String.ext
      simp [String.singleton]
    simp [this]

/-- A text whose characters the stream passes on unchanged is appended to the output as
it is, when the stream has not failed. -/
theorem wcoutWrite_passed (narrow : Char → Option String) (fx : Effects) (s : String)
    (hbad : fx.wcoutBad = false) (h : ∀ c ∈ s.data, passedUnchanged narrow c) :
    wcoutWrite narrow fx s = { fx with out := fx.out ++ s } := by
  unfold wcoutWrite
  rw [foldl_wcoutPut_passed narrow s.data fx hbad h]

theorem digitChar_ascii (n : Nat) : (Nat.digitChar (n % 10)).toNat < 128 := by
  have h : ∀ m, m < 10 → (Nat.digitChar m).toNat < 128 := by decide
  exact h (n % 10) (Nat.mod_lt n (by decide))

theorem toDigitsCore_ascii (fuel n : Nat) (ds : List Char)
    (h : ∀ c ∈ ds, c.toNat < 128) : ∀ c ∈ Nat.toDigitsCore 10 fuel n ds, c.toNat < 128 := by
  induction fuel generalizing n ds with
  | zero => simpa [Nat.toDigitsCore] using h
  | succ fuel ih =>
    have hcons : ∀ c ∈ Nat.digitChar (n % 10) :: ds, c.toNat < 128 := by
      intro c hc
      rcases List.mem_cons.mp hc with hc | hc
      · rw [hc]
        exact digitChar_ascii _
      · exact h c hc
    simp only [Nat.toDigitsCore]
    split
    · exact hcons
    · exact ih _ _ hcons

/-- The decimal digits of a number are ASCII characters. -/
theorem toString_ascii (n : Nat) : ∀ c ∈ (toString n).data, c.toNat < 128 := by
  show ∀ c ∈ (Nat.repr n).data, c.toNat < 128
  unfold Nat.repr Nat.toDigits
  exact toDigitsCore_ascii _ _ [] (by simp)

/-- The loop of the `list` request inserts one entry per record, numbered from `index`. -/
theorem listLoop_eq_write (narrow : Char → Option String) (defaultId : WString)
    (infos : List DeviceInfo) (index : Nat) (fx : Effects) :
    listLoop narrow defaultId infos index fx =
      wcoutWrite narrow fx (String.join ((infos.enumFrom index).map fun p =>
        toString p.1 ++ ": " ++ p.2.name ++
          (if p.2.id = defaultId then " [default]" else "") ++ "\n")) := by
  induction infos generalizing index fx with
  | nil => simp [listLoop, String.join, wcoutWrite]
  | cons info rest ih =>
    simp only [listLoop, List.enumFrom_cons, List.map_cons, join_cons, ih, beq_iff_eq,
      wcoutWrite_append]

/-! ## Lemmas on the enumeration -/

theorem foldl_filter_map {α β σ : Type} (p : α → Bool) (g : α → β) (cb : σ → β → σ)
    (l : List α) (s : σ) :
    l.foldl (fun s i => if p i = true then cb s (g i) else s) s =
      ((l.filter p).map g).foldl cb s := by
  induction l generalizing s with
  | nil => simp
  | cons a rest ih =>
    by_cases h : p a = true <;> simp [List.foldl_cons, ih, h]

theorem foldl_snoc {α : Type} (l acc : List α) :
    l.foldl (fun devs dev => devs ++ [dev]) acc = acc ++ l := by
  induction l generalizing acc with
  | nil => simp
  | cons a rest ih => simp [List.foldl_cons, ih]

/-- The enumerated devices are those of the collection whose `Item` call succeeds, in
index order; there is none when `EnumAudioEndpoints` fails. -/
theorem enumerated_eq {ν : Type} (pEnum : IMMDeviceEnumerator ν) :
    enumerated pEnum =
      if SUCCEEDED (pEnum.EnumAudioEndpoints .eRender DEVICE_STATE_ACTIVE).1 = true then
        ((List.range (pEnum.EnumAudioEndpoints .eRender DEVICE_STATE_ACTIVE).2.GetCount).filter
          (fun i => SUCCEEDED
            ((pEnum.EnumAudioEndpoints .eRender DEVICE_STATE_ACTIVE).2.Item i).1)).map
          (fun i => ((pEnum.EnumAudioEndpoints .eRender DEVICE_STATE_ACTIVE).2.Item i).2)
      else [] := by
  unfold enumerated enumDevices
  simp only
  split
  · refine (foldl_filter_map (fun i => SUCCEEDED ((pEnum.EnumAudioEndpoints
        EDataFlow.eRender DEVICE_STATE_ACTIVE).2.Item i).1)
        (fun i => ((pEnum.EnumAudioEndpoints EDataFlow.eRender
          DEVICE_STATE_ACTIVE).2.Item i).2)
        (fun devs dev => devs ++ [dev]) _ _).trans ?_
    rw [foldl_snoc]
    simp
  · rfl

/-- The callback of `enumDevices` is run over the enumerated devices. -/
theorem enumDevices_eq_foldl {ν σ : Type} (pEnum : IMMDeviceEnumerator ν)
    (cb : σ → IMMDevice ν → σ) (s : σ) :
    enumDevices pEnum cb s = (enumerated pEnum).foldl cb s := by
  rw [enumerated_eq]
  unfold enumDevices
  simp only
  split
  · exact foldl_filter_map (fun i => SUCCEEDED ((pEnum.EnumAudioEndpoints
        EDataFlow.eRender DEVICE_STATE_ACTIVE).2.Item i).1)
        (fun i => ((pEnum.EnumAudioEndpoints EDataFlow.eRender
          DEVICE_STATE_ACTIVE).2.Item i).2) cb _ _
  · rfl

theorem getDeviceInfo_eq {ν : Type} [PropVariant ν] (dev : IMMDevice ν) :
    getDeviceInfo dev =
      if readable dev = true then
        (PropVariant.pwszVal dev.OpenPropertyStore.2.GetValue.2).map
          (fun friendlyName => { name := friendlyName, id := dev.GetId.2 })
      else some { name := "", id := "" } := by
  unfold getDeviceInfo readable
  by_cases h1 : SUCCEEDED dev.GetId.1 = true <;>
  by_cases h2 : SUCCEEDED dev.OpenPropertyStore.1 = true <;>
  by_cases h3 : SUCCEEDED dev.OpenPropertyStore.2.GetValue.1 = true <;>
  simp [h1, h2, h3]
  cases PropVariant.pwszVal dev.OpenPropertyStore.2.GetValue.2 <;> rfl

/-- When the friendly name of a device is read as a string, `getDeviceInfo` returns its
record, empty if one of the calls failed. -/
theorem getDeviceInfo_of_string {ν : Type} [PropVariant ν] (dev : IMMDevice ν)
    (h : readable dev = true →
      (PropVariant.pwszVal dev.OpenPropertyStore.2.GetValue.2).isSome = true) :
    getDeviceInfo dev = some (if readable dev = true then
        { name := friendlyNameOf dev, id := dev.GetId.2 }
      else { name := "", id := "" }) := by
  rw [getDeviceInfo_eq]
  by_cases hr : readable dev = true
  · obtain ⟨s, hs⟩ := Option.isSome_iff_exists.mp (h hr)
    simp [hr, hs, friendlyNameOf]
  · simp [hr]

theorem foldl_pushInfo {ν : Type} [PropVariant ν] (devs : List (IMMDevice ν))
    (acc : List DeviceInfo)
    (h : ∀ dev ∈ devs, readable dev = true →
      (PropVariant.pwszVal dev.OpenPropertyStore.2.GetValue.2).isSome = true) :
    devs.foldl pushInfo { infos := acc, nullName := false } =
      { infos := acc ++ devs.map (fun dev =>
          if readable dev = true then { name := friendlyNameOf dev, id := dev.GetId.2 }
          else { name := "", id := "" }),
        nullName := false } := by
  induction devs generalizing acc with
  | nil => simp
  | cons dev rest ih =>
    have hd := getDeviceInfo_of_string dev (h dev (List.mem_cons_self dev rest))
    have hpush : pushInfo { infos := acc, nullName := false } dev =
        { infos := acc ++ [if readable dev = true then
            { name := friendlyNameOf dev, id := dev.GetId.2 }
          else { name := "", id := "" }], nullName := false } := by
      simp [pushInfo, hd]
    rw [List.foldl_cons, hpush, ih _ (fun d hd => h d (List.mem_cons_of_mem dev hd))]
    simp

/-- When every friendly name that is read is a string, the enumeration completes, with
one record per enumerated device. -/
theorem enumerate_eq {ν : Type} [PropVariant ν] (pEnum : IMMDeviceEnumerator ν)
    (h : ∀ dev ∈ enumerated pEnum, readable dev = true →
      (PropVariant.pwszVal dev.OpenPropertyStore.2.GetValue.2).isSome = true) :
    enumerate pEnum =
      { infos := (enumerated pEnum).map (fun dev =>
          if readable dev = true then { name := friendlyNameOf dev, id := dev.GetId.2 }
          else { name := "", id := "" }),
        nullName := false } := by
  unfold enumerate
  rw [enumDevices_eq_foldl, foldl_pushInfo _ [] h]
  simp

theorem pwszVal_string (v : WString) : PropVariant.pwszVal v = some v := rfl

theorem isSome_string (dev : IMMDevice WString) :
    (PropVariant.pwszVal dev.OpenPropertyStore.2.GetValue.2).isSome = true := rfl

/-- On a host whose friendly names are strings the enumeration always completes. -/
theorem enumerate_nullName_false (pEnum : IMMDeviceEnumerator WString) :
    (enumerate pEnum).nullName = false := by
  rw [enumerate_eq pEnum (fun dev _ _ => isSome_string dev)]

/-- On a host whose friendly names are strings the device list holds the record of each
enumerated device, readable or not. -/
theorem buildInfos_eq_map (pEnum : IMMDeviceEnumerator WString) :
    buildInfos pEnum = (enumerated pEnum).map (fun dev =>
      if readable dev = true then
        { name := dev.OpenPropertyStore.2.GetValue.2, id := dev.GetId.2 }
      else { name := "", id := "" }) := by
  unfold buildInfos
  rw [enumerate_eq pEnum (fun dev _ _ => isSome_string dev)]
  rfl

theorem enumerated_hostOf (devs : List (IMMDevice WString))
    (dflt : HRESULT × IMMDevice WString) :
    enumerated (hostOf devs dflt).CoCreateInstance_MMDeviceEnumerator.2 = devs := by
  rw [enumerated_eq]
  have h0 : SUCCEEDED 0 = true := rfl
  simp only [hostOf, h0, if_true, List.filter_true]
  apply List.ext_getElem?
  intro n
  rw [List.getElem?_map]
  rcases Nat.lt_or_ge n devs.length with h | h
  · rw [List.getElem?_range h, List.getElem?_eq_getElem h]
    simp [List.getElem?_eq_getElem h]
  · rw [List.getElem?_eq_none h, List.getElem?_eq_none (by simpa using h)]
    rfl

/-! ## Lemmas on the program -/

theorem Options_of_number (prog arg : WString) (K : Int) (h : stoi arg = .ok K) :
    Options.Options [prog, arg] =
      .ok (if 0 ≤ K then { index := K, special := true } else { index := K, help := true }) := by
  obtain ⟨h1, h2, h3, h4⟩ := stoi_flag arg K h
  simp only [Options.Options, List.length_cons, List.length_nil, List.getD_cons_succ,
    List.getD_cons_zero, h1, h2, h3, h4, h, or_self, if_false, if_true]
  split <;> simp

theorem Options_of_next (prog arg : WString) (h : arg = "-n" ∨ arg = "/n") :
    Options.Options [prog, arg] = .ok { next := true } := by
  simp [Options.Options, h]

theorem Options_of_list (prog arg : WString) (h : arg = "-l" ∨ arg = "/l") :
    Options.Options [prog, arg] = .ok { list := true } := by
  have hn : ¬ (arg = "-n" ∨ arg = "/n") := by
    rcases h with h | h <;> subst h <;> decide
  simp [Options.Options, h, hn]

/-- After a successful start-up and a completed enumeration, a run that is not a help run
serves the request on the device list and the default id it has read. -/
theorem wmain_eq_serveRequest_of {ν : Type} [PropVariant ν] (host : HostOf ν)
    (argv : List WString) (opts : Options)
    (ho : Options.Options argv = .ok opts) (hh : opts.help = false) (hs : StartsUp host)
    (hc : (enumerate host.CoCreateInstance_MMDeviceEnumerator.2).nullName = false) :
    wmain host argv =
      serveRequest host opts (buildInfos host.CoCreateInstance_MMDeviceEnumerator.2)
        (getDefaultDeviceId host.CoCreateInstance_MMDeviceEnumerator.2) := by
  obtain ⟨h1, h2⟩ := hs
  simp [wmain, ho, hh, FAILED_eq_not_SUCCEEDED, h1, h2, hc]

/-- The same on a host whose friendly names are strings, where the enumeration always
completes. -/
theorem wmain_eq_serveRequest (host : Host) (argv : List WString) (opts : Options)
    (ho : Options.Options argv = .ok opts) (hh : opts.help = false) (hs : StartsUp host) :
    wmain host argv =
      serveRequest host opts (buildInfos host.CoCreateInstance_MMDeviceEnumerator.2)
        (getDefaultDeviceId host.CoCreateInstance_MMDeviceEnumerator.2) :=
  wmain_eq_serveRequest_of host argv opts ho hh hs (enumerate_nullName_false _)

theorem setter_setterCalls {ν : Type} (host : HostOf ν) (devID : WString) (fx : Effects) :
    (SetDefaultAudioPlaybackDevice host devID fx).2.setterCalls = fx.setterCalls ++ [devID] := by
  simp only [SetDefaultAudioPlaybackDevice]
  by_cases h : SUCCEEDED host.CoCreateInstance_CPolicyConfigVistaClient.1 = true <;> simp [h]

theorem setter_policyCalls {ν : Type} (host : HostOf ν) (devID : WString) (fx : Effects) :
    (SetDefaultAudioPlaybackDevice host devID fx).2.policyCalls =
      if SUCCEEDED host.CoCreateInstance_CPolicyConfigVistaClient.1 then
        fx.policyCalls ++ [(devID, ERole.eConsole)]
      else fx.policyCalls := by
  simp only [SetDefaultAudioPlaybackDevice]
  by_cases h : SUCCEEDED host.CoCreateInstance_CPolicyConfigVistaClient.1 = true <;> simp [h]

theorem nextPosition_lt (infos : List DeviceInfo) (defaultId : WString) (h : infos ≠ []) :
    nextPosition infos defaultId < infos.length := by
  have hpos : 0 < infos.length := List.length_pos.mpr h
  have hle := find_if_le (fun a : DeviceInfo => a.id == defaultId) infos
  unfold nextPosition
  simp only
  split
  · exact hpos
  · omega

/-- After a successful start-up the `next` run reads the record at `nextPosition`. -/
theorem wmain_next (host : Host) (prog arg : WString) (harg : arg = "-n" ∨ arg = "/n")
    (hs : StartsUp host) :
    wmain host [prog, arg] =
      serveNext host { next := true } (buildInfos host.CoCreateInstance_MMDeviceEnumerator.2)
        (getDefaultDeviceId host.CoCreateInstance_MMDeviceEnumerator.2) {} := by
  rw [wmain_eq_serveRequest host [prog, arg] _ (Options_of_next prog arg harg) rfl hs]
  simp [serveRequest]

/-- After a successful start-up and a completed enumeration the `list` run inserts the
entries of the device list into `std::wcout` and returns. -/
theorem wmain_list {ν : Type} [PropVariant ν] (host : HostOf ν) (prog arg : WString)
    (harg : arg = "-l" ∨ arg = "/l") (hs : StartsUp host)
    (hc : (enumerate host.CoCreateInstance_MMDeviceEnumerator.2).nullName = false) :
    wmain host [prog, arg] =
      (wcoutWrite host.wcout_narrow {} (String.join
        ((buildInfos host.CoCreateInstance_MMDeviceEnumerator.2).enum.map fun p =>
          toString p.1 ++ ": " ++ p.2.name ++
            (if p.2.id = getDefaultDeviceId host.CoCreateInstance_MMDeviceEnumerator.2
              then " [default]" else "") ++ "\n")), .returned 0) := by
  rw [wmain_eq_serveRequest_of host [prog, arg] _ (Options_of_list prog arg harg) rfl hs hc]
  simp [serveRequest, serveNext, listLoop_eq_write, List.enum]

/-! ## Selecting by index -/

/-- Claim C1.  After a successful start-up, an argument that `std::stoi` reads as an
integer `K` with `0 ≤ K < count` makes the program call the setter exactly once, with the
id of the record at position `K` of the device list, and return status 0. -/
theorem select_by_index_in_range (host : Host) (prog arg : WString) (K : Int)
    (hs : StartsUp host) (hparse : stoi arg = .ok K) (h0 : 0 ≤ K)
    (hlt : K < (buildInfos host.CoCreateInstance_MMDeviceEnumerator.2).length) :
    ∃ d, (buildInfos host.CoCreateInstance_MMDeviceEnumerator.2)[K.toNat]? = some d ∧
      (wmain host [prog, arg]).1.setterCalls = [d.id] ∧
      (wmain host [prog, arg]).2 = .returned 0 := by
  have ho := Options_of_number prog arg K hparse
  rw [if_pos h0] at ho
  have hw := wmain_eq_serveRequest host [prog, arg] _ ho rfl hs
  have hk : K.toNat < (buildInfos host.CoCreateInstance_MMDeviceEnumerator.2).length := by
    omega
  have hnot : ¬ (K < 0 ∨
      (buildInfos host.CoCreateInstance_MMDeviceEnumerator.2).length ≤ K.toNat) := by
    omega
  refine ⟨(buildInfos host.CoCreateInstance_MMDeviceEnumerator.2)[K.toNat],
    List.getElem?_eq_getElem hk, ?_, ?_⟩
  · rw [hw]
    simp [serveRequest, serveNext, hnot, List.getElem?_eq_getElem hk, setter_setterCalls]
  · rw [hw]
    simp [serveRequest, serveNext, hnot, List.getElem?_eq_getElem hk]

/-- Claim C1, at the three-device host with argument `2`. -/
theorem select_by_index_in_range_witness :
    ∃ d, (buildInfos scenarioHost.CoCreateInstance_MMDeviceEnumerator.2)[(2 : Int).toNat]? =
        some d ∧
      (wmain scenarioHost ["switch", "2"]).1.setterCalls = [d.id] ∧
      (wmain scenarioHost ["switch", "2"]).2 = .returned 0 :=
  select_by_index_in_range scenarioHost "switch" "2" 2 ⟨rfl, rfl⟩ rfl (by decide) (by decide)

/-- Claim C2.  An argument that `std::stoi` reads as a non-negative integer `K` with
`K ≥ count` (every such `K` when the list is empty) never reaches the setter: no setter
call, no request to the policy client, and the run returns status -1. -/
theorem select_by_index_out_of_range (host : Host) (prog arg : WString) (K : Int)
    (hparse : stoi arg = .ok K) (h0 : 0 ≤ K)
    (hge : ((buildInfos host.CoCreateInstance_MMDeviceEnumerator.2).length : Int) ≤ K) :
    (wmain host [prog, arg]).1.setterCalls = [] ∧
      (wmain host [prog, arg]).1.policyCalls = [] ∧
      (wmain host [prog, arg]).2 = .returned (-1) := by
  have ho := Options_of_number prog arg K hparse
  rw [if_pos h0] at ho
  by_cases h1 : SUCCEEDED host.CoInitialize = true
  · by_cases h2 : SUCCEEDED host.CoCreateInstance_MMDeviceEnumerator.1 = true
    · have hw := wmain_eq_serveRequest host [prog, arg] _ ho rfl ⟨h1, h2⟩
      have hor : K < 0 ∨
          (buildInfos host.CoCreateInstance_MMDeviceEnumerator.2).length ≤ K.toNat := by
        omega
      rw [hw]
      simp [serveRequest, hor]
    · simp [wmain, ho, FAILED_eq_not_SUCCEEDED, h1, h2]
  · simp [wmain, ho, FAILED_eq_not_SUCCEEDED, h1]

/-- Claim C2, at the three-device host with argument `3`. -/
theorem select_by_index_out_of_range_witness :
    (wmain scenarioHost ["switch", "3"]).1.setterCalls = [] ∧
      (wmain scenarioHost ["switch", "3"]).1.policyCalls = [] ∧
      (wmain scenarioHost ["switch", "3"]).2 = .returned (-1) :=
  select_by_index_out_of_range scenarioHost "switch" "3" 3 rfl (by decide) (by decide)

/-! ## Help -/

/-- Claim C5.  With no argument, and with one argument that `std::stoi` reads as a
negative integer, the run writes the usage text and nothing else, calls no setter and
returns status 0, on every host. -/
theorem help_on_no_argument_or_negative (host : Host) (argv : List WString)
    (h : argv.length = 1 ∨
      ∃ prog arg K, argv = [prog, arg] ∧ stoi arg = .ok K ∧ K < 0) :
    wmain host argv = ({ out := usageText }, .returned 0) := by
  rcases h with h | ⟨prog, arg, K, hargv, hparse, hneg⟩
  · have hne : ¬ argv.length = 2 := by omega
    simp [wmain, Options.Options, hne]
  · subst hargv
    have ho := Options_of_number prog arg K hparse
    rw [if_neg (by omega)] at ho
    simp [wmain, ho]

/-- Claim C5, with no argument and with the argument `-7`. -/
theorem help_on_no_argument_or_negative_witness :
    wmain scenarioHost ["switch"] = ({ out := usageText }, .returned 0) ∧
      wmain scenarioHost ["switch", "-7"] = ({ out := usageText }, .returned 0) :=
  ⟨help_on_no_argument_or_negative scenarioHost ["switch"] (Or.inl rfl),
    help_on_no_argument_or_negative scenarioHost ["switch", "-7"]
      (Or.inr ⟨"switch", "-7", -7, rfl, rfl, by decide⟩)⟩

/-! ## The `next` request -/

/-- Claim C3.  On a non-empty device list `next` calls the setter exactly once, on the id
of a record `d` of the list: the record following the first one whose id is the default
id; the first record when that one is the last of the list, when no record has the default
id, and when the list has one record. -/
theorem next_rotation (host : Host) (prog arg : WString) (harg : arg = "-n" ∨ arg = "/n")
    (hs : StartsUp host)
    (hne : buildInfos host.CoCreateInstance_MMDeviceEnumerator.2 ≠ []) :
    ∃ d first,
      (buildInfos host.CoCreateInstance_MMDeviceEnumerator.2)[0]? = some first ∧
      (wmain host [prog, arg]).1.setterCalls = [d.id] ∧
      (∀ (i : Nat) (a : DeviceInfo),
        (buildInfos host.CoCreateInstance_MMDeviceEnumerator.2)[i]? = some a →
        a.id = getDefaultDeviceId host.CoCreateInstance_MMDeviceEnumerator.2 →
        (∀ (j : Nat) (b : DeviceInfo), j < i →
          (buildInfos host.CoCreateInstance_MMDeviceEnumerator.2)[j]? = some b →
          b.id ≠ getDefaultDeviceId host.CoCreateInstance_MMDeviceEnumerator.2) →
        if i + 1 < (buildInfos host.CoCreateInstance_MMDeviceEnumerator.2).length then
          (buildInfos host.CoCreateInstance_MMDeviceEnumerator.2)[i + 1]? = some d
        else d = first) ∧
      ((∀ a ∈ buildInfos host.CoCreateInstance_MMDeviceEnumerator.2,
          a.id ≠ getDefaultDeviceId host.CoCreateInstance_MMDeviceEnumerator.2) → d = first) ∧
      ((buildInfos host.CoCreateInstance_MMDeviceEnumerator.2).length = 1 → d = first) := by
  generalize hI : buildInfos host.CoCreateInstance_MMDeviceEnumerator.2 = infos at hne ⊢
  generalize hD : getDefaultDeviceId host.CoCreateInstance_MMDeviceEnumerator.2 = dflt
  have hw := wmain_next host prog arg harg hs
  rw [hI, hD] at hw
  have hpos : 0 < infos.length := List.length_pos.mpr hne
  have hlt := nextPosition_lt infos dflt hne
  have hget : infos[nextPosition infos dflt]? = some infos[nextPosition infos dflt] :=
    List.getElem?_eq_getElem hlt
  have key : ∀ k, nextPosition infos dflt = k → ∀ e, infos[k]? = some e →
      infos[nextPosition infos dflt] = e := by
    intro k hk e he
    subst hk
    rw [hget] at he
    exact Option.some.inj he
  refine ⟨infos[nextPosition infos dflt], infos[0], List.getElem?_eq_getElem hpos, ?_, ?_,
    ?_, ?_⟩
  · rw [hw]
    simp [serveNext, hget, setter_setterCalls]
  · intro i a hi ha hfirst
    have hil : i < infos.length := by
      rcases Nat.lt_or_ge i infos.length with h | h
      · exact h
      · rw [List.getElem?_eq_none h] at hi
        cases hi
    have hfind : find_if (fun x : DeviceInfo => x.id == dflt) infos = i :=
      find_if_eq_first _ infos i a hi (by simp [ha])
        (fun j b hj hb => by simpa using hfirst j b hj hb)
    split
    · rename_i hnext
      have hk : nextPosition infos dflt = i + 1 := by
        unfold nextPosition
        rw [hfind]
        have : ¬ (i = infos.length ∨ i + 1 = infos.length) := by omega
        simp [this]
      rw [key (i + 1) hk _ (List.getElem?_eq_getElem hnext)]
      exact List.getElem?_eq_getElem hnext
    · rename_i hnext
      have hk : nextPosition infos dflt = 0 := by
        unfold nextPosition
        rw [hfind]
        have : i = infos.length ∨ i + 1 = infos.length := by omega
        simp [this]
      exact key 0 hk _ (List.getElem?_eq_getElem hpos)
  · intro hnone
    have hfind : find_if (fun x : DeviceInfo => x.id == dflt) infos = infos.length :=
      find_if_eq_length _ infos (fun a ha => by simpa using hnone a ha)
    have hk : nextPosition infos dflt = 0 := by
      unfold nextPosition
      rw [hfind]
      simp
    exact key 0 hk _ (List.getElem?_eq_getElem hpos)
  · intro hone
    have hk : nextPosition infos dflt = 0 := by omega
    exact key 0 hk _ (List.getElem?_eq_getElem hpos)

/-- Claim C3, at the three-device host whose default is the second device: the setter is
called once, on the id of the third device. -/
theorem next_rotation_witness :
    (wmain scenarioHost ["switch", "-n"]).1.setterCalls = ["id-c"] := by
  obtain ⟨d, first, _, hcalls, hfollow, _, _⟩ :=
    next_rotation scenarioHost "switch" "-n" (Or.inl rfl) ⟨rfl, rfl⟩ (by decide)
  have h := hfollow 1 { name := "Headphones", id := "id-b" } rfl rfl (by
    intro j b hj hb
    have hj0 : j = 0 := by omega
    subst hj0
    have hb2 : b = { name := "Speakers", id := "id-a" } := (Option.some.inj hb).symm
    subst hb2
    decide)
  have hd : d = { name := "HDMI", id := "id-c" } := by
    rw [if_pos (by decide)] at h
    exact (Option.some.inj h).symm
  rw [hcalls, hd]

/-- Claim C10.  The position `next` reads the selected record from lies below the size of
the device list exactly when the list is non-empty.  With an empty list the position is
the end position and the run ends in dereferencing it, before any setter call; with a
non-empty list that never happens, and the run returns 0. -/
theorem next_bounds (host : Host) (prog arg : WString) (harg : arg = "-n" ∨ arg = "/n")
    (hs : StartsUp host) :
    (nextPosition (buildInfos host.CoCreateInstance_MMDeviceEnumerator.2)
        (getDefaultDeviceId host.CoCreateInstance_MMDeviceEnumerator.2) <
        (buildInfos host.CoCreateInstance_MMDeviceEnumerator.2).length ↔
      buildInfos host.CoCreateInstance_MMDeviceEnumerator.2 ≠ []) ∧
    (buildInfos host.CoCreateInstance_MMDeviceEnumerator.2 = [] →
      nextPosition (buildInfos host.CoCreateInstance_MMDeviceEnumerator.2)
          (getDefaultDeviceId host.CoCreateInstance_MMDeviceEnumerator.2) =
        (buildInfos host.CoCreateInstance_MMDeviceEnumerator.2).length ∧
      wmain host [prog, arg] = ({}, .endDereferenced)) ∧
    (buildInfos host.CoCreateInstance_MMDeviceEnumerator.2 ≠ [] →
      (wmain host [prog, arg]).2 = .returned 0) := by
  generalize hI : buildInfos host.CoCreateInstance_MMDeviceEnumerator.2 = infos
  generalize hD : getDefaultDeviceId host.CoCreateInstance_MMDeviceEnumerator.2 = dflt
  have hw := wmain_next host prog arg harg hs
  rw [hI, hD] at hw
  refine ⟨⟨?_, nextPosition_lt infos dflt⟩, ?_, ?_⟩
  · intro hlt hnil
    subst hnil
    simp at hlt
  · intro hnil
    subst hnil
    refine ⟨by simp [nextPosition, find_if], ?_⟩
    rw [hw]
    simp [serveNext]
  · intro hne
    have hget := List.getElem?_eq_getElem (nextPosition_lt infos dflt hne)
    rw [hw]
    simp [serveNext, hget]

/-- Claim C10, at the host without endpoints. -/
theorem next_bounds_witness :
    nextPosition (buildInfos emptyHost.CoCreateInstance_MMDeviceEnumerator.2)
        (getDefaultDeviceId emptyHost.CoCreateInstance_MMDeviceEnumerator.2) =
      (buildInfos emptyHost.CoCreateInstance_MMDeviceEnumerator.2).length ∧
    wmain emptyHost ["switch", "-n"] = ({}, .endDereferenced) :=
  (next_bounds emptyHost "switch" "-n" (Or.inl rfl) ⟨rfl, rfl⟩).2.1 rfl

/-- Claim C6.  An argument that is no flag and that `std::stoi` cannot read, such as `abc`
or `--help`, does not lead to the usage text: the exception `std::invalid_argument` leaves
`wmain` uncaught and nothing has been written. -/
theorem unrecognized_argument_uncaught :
    wmain scenarioHost ["switch", "--help"] = ({}, .uncaught .invalid_argument) ∧
      wmain scenarioHost ["switch", "abc"] = ({}, .uncaught .invalid_argument) ∧
      (wmain scenarioHost ["switch", "--help"]).1.out ≠ usageText :=
  ⟨rfl, rfl, by decide⟩

/-! ## The device list -/

/-- Every device list and every default id occur: some host starts up, builds that list
and reports that default id. -/
theorem exists_host (infos : List DeviceInfo) (defaultId : WString) :
    ∃ host : Host, StartsUp host ∧
      buildInfos host.CoCreateInstance_MMDeviceEnumerator.2 = infos ∧
      getDefaultDeviceId host.CoCreateInstance_MMDeviceEnumerator.2 = defaultId := by
  refine ⟨hostOf (infos.map fun d => goodDevice d.name d.id) (0, goodDevice "" defaultId),
    ⟨rfl, rfl⟩, ?_, rfl⟩
  rw [buildInfos_eq_map, enumerated_hostOf, List.map_map]
  have hid : ((fun dev : IMMDevice WString =>
      if readable dev = true then
        ({ name := dev.OpenPropertyStore.2.GetValue.2, id := dev.GetId.2 } : DeviceInfo)
      else { name := "", id := "" }) ∘ fun d : DeviceInfo => goodDevice d.name d.id) = id := by
    funext d
    rfl
  rw [hid, List.map_id]

/-- Claim C7, as stated, fails.  On a host whose first endpoint has an unreadable id and
whose second endpoint is readable, the device list is not the list of the readable
devices: it starts with an empty record, and `list` shows the readable device under
index 1. -/
theorem unreadable_device_not_skipped :
    buildInfos mixedHost.CoCreateInstance_MMDeviceEnumerator.2 ≠
        skippingDeviceList mixedHost.CoCreateInstance_MMDeviceEnumerator.2 ∧
      skippingDeviceList mixedHost.CoCreateInstance_MMDeviceEnumerator.2 =
        [{ name := "Speakers", id := "id-a" }] ∧
      buildInfos mixedHost.CoCreateInstance_MMDeviceEnumerator.2 =
        [{ name := "", id := "" }, { name := "Speakers", id := "id-a" }] ∧
      (wmain mixedHost ["switch", "-l"]).1.out = "0: \n1: Speakers [default]\n" :=
  ⟨by decide, rfl, rfl, rfl⟩

/-! ## The default marker -/

/-- Claim C8, as stated, fails.  On a host with two endpoints whose id cannot be read and
a failing default endpoint query, both records have the empty id, the default id is the
empty string, and both entries `list` prints carry the marker. -/
theorem default_marker_twice :
    wmain ghostHost ["switch", "-l"] =
        ({ out := "0:  [default]\n1:  [default]\n" }, .returned 0) ∧
      getDefaultDeviceId ghostHost.CoCreateInstance_MMDeviceEnumerator.2 = "" ∧
      (buildInfos ghostHost.CoCreateInstance_MMDeviceEnumerator.2).countP
        (fun d => d.id == getDefaultDeviceId ghostHost.CoCreateInstance_MMDeviceEnumerator.2)
        = 2 :=
  ⟨rfl, rfl, rfl⟩

/-! ## The scenario of the specification -/

/-- Claim C9.  Three runs on hosts whose device list is Speakers, Headphones, HDMI (with
pairwise distinct ids): a `list` run and a `next` run that both see Headphones as default,
and a further `next` run whose multimedia default query yields the id the second run
asked the policy client to install for the console role.  The first marks exactly index 1,
the second calls the setter on the id of HDMI, the third on the id of Speakers. -/
theorem scenario_runs (h1 h2 h3 : Host) (prog a b c : WString)
    (hab : a ≠ b) (hbc : b ≠ c) (hac : a ≠ c)
    (hs1 : StartsUp h1) (hs2 : StartsUp h2) (hs3 : StartsUp h3)
    (hl1 : buildInfos h1.CoCreateInstance_MMDeviceEnumerator.2 =
      [{ name := "Speakers", id := a }, { name := "Headphones", id := b },
        { name := "HDMI", id := c }])
    (hl2 : buildInfos h2.CoCreateInstance_MMDeviceEnumerator.2 =
      buildInfos h1.CoCreateInstance_MMDeviceEnumerator.2)
    (hl3 : buildInfos h3.CoCreateInstance_MMDeviceEnumerator.2 =
      buildInfos h1.CoCreateInstance_MMDeviceEnumerator.2)
    (hd1 : getDefaultDeviceId h1.CoCreateInstance_MMDeviceEnumerator.2 = b)
    (hd2 : getDefaultDeviceId h2.CoCreateInstance_MMDeviceEnumerator.2 = b)
    (hd3 : (wmain h2 [prog, "-n"]).1.policyCalls.getLast? =
      some (getDefaultDeviceId h3.CoCreateInstance_MMDeviceEnumerator.2, ERole.eConsole)) :
    wmain h1 [prog, "-l"] =
        ({ out := "0: Speakers\n1: Headphones [default]\n2: HDMI\n" }, .returned 0) ∧
      (wmain h2 [prog, "-n"]).1.setterCalls = [c] ∧
      (wmain h3 [prog, "-n"]).1.setterCalls = [a] := by
  have hw1 := wmain_list h1 prog "-l" (Or.inl rfl) hs1 (enumerate_nullName_false _)
  have hw2 := wmain_next h2 prog "-n" (Or.inl rfl) hs2
  have hw3 := wmain_next h3 prog "-n" (Or.inl rfl) hs3
  rw [hl2, hl1, hd2] at hw2
  rw [hl3, hl1] at hw3
  rw [hl1, hd1] at hw1
  have hn2 : nextPosition [{ name := "Speakers", id := a }, { name := "Headphones", id := b },
      { name := "HDMI", id := c }] b = 2 := by
    simp [nextPosition, find_if, hab]
  have hcb : c ≠ b := fun h => hbc h.symm
  have hn3 : nextPosition [{ name := "Speakers", id := a }, { name := "Headphones", id := b },
      { name := "HDMI", id := c }] c = 0 := by
    simp [nextPosition, find_if, hac, hbc]
  have hcalls2 : (wmain h2 [prog, "-n"]).1.setterCalls = [c] := by
    rw [hw2]
    simp [serveNext, hn2, setter_setterCalls]
  have hpol2 : (wmain h2 [prog, "-n"]).1.policyCalls =
      if SUCCEEDED h2.CoCreateInstance_CPolicyConfigVistaClient.1 then [(c, ERole.eConsole)]
      else [] := by
    rw [hw2]
    simp [serveNext, hn2, setter_policyCalls]
  have hd3c : getDefaultDeviceId h3.CoCreateInstance_MMDeviceEnumerator.2 = c := by
    rw [hpol2] at hd3
    by_cases hp : SUCCEEDED h2.CoCreateInstance_CPolicyConfigVistaClient.1 = true
    · simp [hp] at hd3
      exact hd3.symm
    · simp [hp] at hd3
  refine ⟨?_, hcalls2, ?_⟩
  · have hjoin : String.join
        (List.map (fun p : Nat × DeviceInfo => toString p.1 ++ ": " ++ p.2.name ++
            (if p.2.id = b then " [default]" else "") ++ "\n")
          [{ name := "Speakers", id := a }, { name := "Headphones", id := b },
            { name := "HDMI", id := c }].enum) =
        "0: Speakers\n1: Headphones [default]\n2: HDMI\n" := by
      simp [List.enum, List.enumFrom, hab, hcb]
      rfl
    have hascii : ∀ ch ∈ "0: Speakers\n1: Headphones [default]\n2: HDMI\n".data,
        ch.toNat < 128 := by decide
    rw [hw1, hjoin, wcoutWrite_passed _ _ _ rfl
      (fun ch hch => passedUnchanged_of_ascii _ ch (hascii ch hch))]
    rfl
  · rw [hw3, hd3c]
    simp [serveNext, hn3, setter_setterCalls]

/-- Claim C9, at the three-device host and the same host after the switch to HDMI. -/
theorem scenario_runs_witness :
    wmain scenarioHost ["switch", "-l"] =
        ({ out := "0: Speakers\n1: Headphones [default]\n2: HDMI\n" }, .returned 0) ∧
      (wmain scenarioHost ["switch", "-n"]).1.setterCalls = ["id-c"] ∧
      (wmain scenarioHostAfter ["switch", "-n"]).1.setterCalls = ["id-a"] :=
  scenario_runs scenarioHost scenarioHost scenarioHostAfter "switch" "id-a" "id-b" "id-c"
    (by decide) (by decide) (by decide) ⟨rfl, rfl⟩ ⟨rfl, rfl⟩ ⟨rfl, rfl⟩ rfl rfl rfl rfl rfl rfl

/-! ## The `list` request -/

theorem mem_join_data (l : List String) (c : Char) (h : c ∈ (String.join l).data) :
    ∃ s ∈ l, c ∈ s.data := by
  rw [String.data_join] at h
  obtain ⟨cs, hcs, hc⟩ := List.mem_flatten.mp h
  obtain ⟨s, hs, rfl⟩ := List.mem_map.mp hcs
  exact ⟨s, hs, hc⟩

/-- The characters of an entry are ASCII characters or characters of the name. -/
theorem entry_chars (index : Nat) (name marker : String) (c : Char)
    (hm : ∀ d ∈ marker.data, d.toNat < 128)
    (h : c ∈ (toString index ++ ": " ++ name ++ marker ++ "\n").data) :
    c.toNat < 128 ∨ c ∈ name.data := by
  simp only [String.data_append, List.mem_append] at h
  rcases h with (((h | h) | h) | h) | h
  · exact Or.inl (toString_ascii index c h)
  · have : ∀ d ∈ ": ".data, d.toNat < 128 := by decide
    exact Or.inl (this c h)
  · exact Or.inr h
  · exact Or.inl (hm c h)
  · have : ∀ d ∈ "\n".data, d.toNat < 128 := by decide
    exact Or.inl (this c h)

/-- Claim C4, as stated, fails.  On a host whose stream writes Cyrillic letters as Latin
ones, the entry of the device named in Cyrillic does not show its name. -/
theorem list_name_converted :
    buildInfos cyrillicHost.CoCreateInstance_MMDeviceEnumerator.2 =
        [{ name := "Динамики", id := "id-a" }, { name := "HDMI", id := "id-c" }] ∧
      wmain cyrillicHost ["switch", "-l"] =
        ({ out := "0: Dinamiki\n1: HDMI [default]\n" }, .returned 0) ∧
      (wmain cyrillicHost ["switch", "-l"]).1.out ≠ "0: Динамики\n1: HDMI [default]\n" :=
  ⟨rfl, rfl, by decide⟩

/-- On a host whose stream cannot convert a character, the output stops before it: the
rest of the name and the entries that follow are not written. -/
theorem list_stops_at_unconvertible :
    wmain cyrillicHostStrict ["switch", "-l"] =
      ({ out := "0: ", wcoutBad := true }, .returned 0) :=
  rfl

/-- Claim C4, amended.  After a successful start-up, when every friendly name that is
read is a string, `list` (argument `-l` or `/l`) inserts into `std::wcout` one entry per
record of the device list, in order: the position counted from 0, `: `, the name, the
marker ` [default]` exactly when the record's id is the default id, and a line end.  It
calls no setter and returns status 0.  When the stream passes on unchanged every
character of every name, as it does for ASCII, the output is exactly these entries. -/
theorem list_output {ν : Type} [PropVariant ν] (host : HostOf ν) (prog arg : WString)
    (harg : arg = "-l" ∨ arg = "/l") (hs : StartsUp host)
    (hstr : ∀ dev ∈ enumerated host.CoCreateInstance_MMDeviceEnumerator.2,
      readable dev = true →
        (PropVariant.pwszVal dev.OpenPropertyStore.2.GetValue.2).isSome = true) :
    wmain host [prog, arg] =
        (wcoutWrite host.wcout_narrow {} (String.join
          ((buildInfos host.CoCreateInstance_MMDeviceEnumerator.2).enum.map fun p =>
            toString p.1 ++ ": " ++ p.2.name ++
              (if p.2.id = getDefaultDeviceId host.CoCreateInstance_MMDeviceEnumerator.2
                then " [default]" else "") ++ "\n")), .returned 0) ∧
      ((∀ d ∈ buildInfos host.CoCreateInstance_MMDeviceEnumerator.2, ∀ c ∈ d.name.data,
          passedUnchanged host.wcout_narrow c) →
        wmain host [prog, arg] =
          ({ out := String.join
              ((buildInfos host.CoCreateInstance_MMDeviceEnumerator.2).enum.map fun p =>
                toString p.1 ++ ": " ++ p.2.name ++
                  (if p.2.id = getDefaultDeviceId host.CoCreateInstance_MMDeviceEnumerator.2
                    then " [default]" else "") ++ "\n") },
            .returned 0)) := by
  have hc : (enumerate host.CoCreateInstance_MMDeviceEnumerator.2).nullName = false := by
    rw [enumerate_eq _ hstr]
  have hw := wmain_list host prog arg harg hs hc
  refine ⟨hw, ?_⟩
  intro hnames
  rw [hw, wcoutWrite_passed _ _ _ rfl]
  · have he : ("" : String) ++ String.join
        ((buildInfos host.CoCreateInstance_MMDeviceEnumerator.2).enum.map fun p =>
          toString p.1 ++ ": " ++ p.2.name ++
            (if p.2.id = getDefaultDeviceId host.CoCreateInstance_MMDeviceEnumerator.2
              then " [default]" else "") ++ "\n") = String.join
        ((buildInfos host.CoCreateInstance_MMDeviceEnumerator.2).enum.map fun p =>
          toString p.1 ++ ": " ++ p.2.name ++
            (if p.2.id = getDefaultDeviceId host.CoCreateInstance_MMDeviceEnumerator.2
              then " [default]" else "") ++ "\n") := by
      apply String.ext
      simp
    simp [he]
  · intro c hcmem
    obtain ⟨s, hs2, hcs⟩ := mem_join_data _ c hcmem
    obtain ⟨p, hp, rfl⟩ := List.mem_map.mp hs2
    have hmarker : ∀ d ∈ (if p.2.id =
        getDefaultDeviceId host.CoCreateInstance_MMDeviceEnumerator.2
        then " [default]" else "").data, d.toNat < 128 := by
      split
      · decide
      · decide
    rcases entry_chars p.1 p.2.name _ c hmarker hcs with h | h
    · exact passedUnchanged_of_ascii _ c h
    · exact hnames p.2 (List.snd_mem_of_mem_enum hp) c h

/-- Claim C4, amended, at the three-device host whose default is the second device. -/
theorem list_output_witness :
    wmain scenarioHost ["switch", "/l"] =
      ({ out := "0: Speakers\n1: Headphones [default]\n2: HDMI\n" }, .returned 0) :=
  ((list_output scenarioHost "switch" "/l" (Or.inr rfl) ⟨rfl, rfl⟩
    (fun dev _ _ => isSome_string dev)).2
    (fun d hd c hc => passedUnchanged_of_ascii _ c
      ((by decide : ∀ d ∈ buildInfos scenarioHost.CoCreateInstance_MMDeviceEnumerator.2,
        ∀ c ∈ d.name.data, c.toNat < 128) d hd c hc))).trans rfl

/-! ## The records of the device list -/

/-- A friendly name that is read but is not a string ends the run before any request is
served: nothing is written and no setter is called. -/
theorem nameless_value_ends_run :
    wmain namelessHost ["switch", "-l"] = ({}, .nullAssigned) ∧
      wmain namelessHost ["switch", "0"] = ({}, .nullAssigned) :=
  ⟨rfl, rfl⟩

/-- Claim C7, amended.  In every enumeration in which each friendly name that is read is a
string, the enumeration completes and the device list has one record per enumerated
device, in enumeration order: the friendly name and the id when the id, the property
store and the friendly name were all read, the empty name and the empty id when one of
these calls failed.  No record is partial, the list is as long as the enumeration, and
the enumerated devices are those whose `Item` call succeeded. -/
theorem device_list_records {ν : Type} [PropVariant ν] (pEnum : IMMDeviceEnumerator ν)
    (hstr : ∀ dev ∈ enumerated pEnum, readable dev = true →
      (PropVariant.pwszVal dev.OpenPropertyStore.2.GetValue.2).isSome = true) :
    (enumerate pEnum).nullName = false ∧
      buildInfos pEnum = (enumerated pEnum).map (fun dev =>
        if readable dev = true then
          { name := friendlyNameOf dev, id := dev.GetId.2 }
        else { name := "", id := "" }) ∧
      (buildInfos pEnum).length = (enumerated pEnum).length ∧
      enumerated pEnum =
        if SUCCEEDED (pEnum.EnumAudioEndpoints .eRender DEVICE_STATE_ACTIVE).1 = true then
          ((List.range
              (pEnum.EnumAudioEndpoints .eRender DEVICE_STATE_ACTIVE).2.GetCount).filter
            (fun i => SUCCEEDED
              ((pEnum.EnumAudioEndpoints .eRender DEVICE_STATE_ACTIVE).2.Item i).1)).map
            (fun i => ((pEnum.EnumAudioEndpoints .eRender DEVICE_STATE_ACTIVE).2.Item i).2)
        else [] := by
  have h := enumerate_eq pEnum hstr
  have hb : buildInfos pEnum = (enumerated pEnum).map (fun dev =>
      if readable dev = true then
        { name := friendlyNameOf dev, id := dev.GetId.2 }
      else { name := "", id := "" }) := by
    unfold buildInfos
    rw [h]
  refine ⟨by rw [h], hb, by rw [hb, List.length_map], enumerated_eq pEnum⟩

/-- Claim C7, amended, at a host whose second endpoint has a property store that cannot
be opened: the device keeps its place in the list, with an empty record. -/
theorem device_list_records_witness :
    (enumerate lockedHost.CoCreateInstance_MMDeviceEnumerator.2).nullName = false ∧
      buildInfos lockedHost.CoCreateInstance_MMDeviceEnumerator.2 =
        [{ name := "Speakers", id := "id-a" }, { name := "", id := "" }] :=
  have h := device_list_records lockedHost.CoCreateInstance_MMDeviceEnumerator.2 (by decide)
  ⟨h.1, h.2.1.trans rfl⟩

/-! ## The default marker, amended -/

theorem countP_le_one_index_unique {α : Type} (p : α → Bool) (l : List α)
    (h : l.countP p ≤ 1) (i j : Nat) (a b : α) (hi : l[i]? = some a) (hj : l[j]? = some b)
    (ha : p a = true) (hb : p b = true) : i = j := by
  induction l generalizing i j with
  | nil => simp at hi
  | cons x xs ih =>
    cases i with
    | zero =>
      cases j with
      | zero => rfl
      | succ k =>
        have hx : x = a := by simpa using hi
        subst hx
        have hk : xs[k]? = some b := by simpa using hj
        have hmem : b ∈ xs := List.getElem?_mem hk
        have hpos : 0 < xs.countP p := List.countP_pos_iff.mpr ⟨b, hmem, hb⟩
        rw [List.countP_cons_of_pos _ _ ha] at h
        omega
    | succ k =>
      cases j with
      | zero =>
        have hx : x = b := by simpa using hj
        subst hx
        have hk : xs[k]? = some a := by simpa using hi
        have hmem : a ∈ xs := List.getElem?_mem hk
        have hpos : 0 < xs.countP p := List.countP_pos_iff.mpr ⟨a, hmem, ha⟩
        rw [List.countP_cons_of_pos _ _ hb] at h
        omega
      | succ m =>
        have hle : xs.countP p ≤ 1 := by
          have := List.countP_cons p x xs
          omega
        have := ih hle k m (by simpa using hi) (by simpa using hj)
        omega

/-- When the ids of the readable devices are pairwise distinct, at most one record has
the default id, unless the default id is empty and two enumerated devices have an empty
record id. -/
theorem countP_default_le_one {ν : Type} [PropVariant ν] (devs : List (IMMDevice ν))
    (dflt : WString)
    (hd : ((devs.filter readable).map (fun dev => dev.GetId.2)).Nodup)
    (he : dflt ≠ "" ∨
      (devs.filter (fun dev => !readable dev || dev.GetId.2 == "")).length ≤ 1) :
    (devs.map (fun dev =>
        if readable dev = true then
          ({ name := friendlyNameOf dev, id := dev.GetId.2 } : DeviceInfo)
        else { name := "", id := "" })).countP (fun d => d.id == dflt) ≤ 1 := by
  rw [List.countP_map]
  by_cases hdf : dflt = ""
  · have hlen : (devs.filter (fun dev => !readable dev || dev.GetId.2 == "")).length ≤ 1 := by
      rcases he with he | he
      · exact absurd hdf he
      · exact he
    rw [← List.countP_eq_length_filter] at hlen
    have hcongr : devs.countP ((fun d : DeviceInfo => d.id == dflt) ∘ fun dev =>
        if readable dev = true then
          ({ name := friendlyNameOf dev, id := dev.GetId.2 } : DeviceInfo)
        else { name := "", id := "" }) =
        devs.countP (fun dev => !readable dev || dev.GetId.2 == "") := by
      apply List.countP_congr
      intro dev _
      by_cases hr : readable dev = true <;> simp [hr, hdf]
    rw [hcongr]
    exact hlen
  · have hcount := (List.nodup_iff_count_le_one.mp hd) dflt
    rw [List.count_eq_countP, List.countP_map, List.countP_filter] at hcount
    have hcongr : devs.countP ((fun d : DeviceInfo => d.id == dflt) ∘ fun dev =>
        if readable dev = true then
          ({ name := friendlyNameOf dev, id := dev.GetId.2 } : DeviceInfo)
        else { name := "", id := "" }) =
        devs.countP (fun dev =>
          ((fun x => x == dflt) ∘ fun dev : IMMDevice ν => dev.GetId.2) dev &&
            readable dev) := by
      apply List.countP_congr
      intro dev _
      have hne : ¬ ("" : String) = dflt := fun h => hdf h.symm
      by_cases hr : readable dev = true <;> simp [hr, hne]
    rw [hcongr]
    exact hcount

/-- Claim C8, amended.  After a successful start-up, when every friendly name that is read
is a string, the ids of the readable devices are pairwise distinct, and the default id is
not empty or at most one enumerated device has an empty record id (it is unreadable, or
its id is empty), a `list` run inserts the marker into `std::wcout` for at most one
position `marked`: every other entry is written without it, and the record at that
position has the id `getDefaultDeviceId` returned. -/
theorem default_marker_unique {ν : Type} [PropVariant ν] (host : HostOf ν)
    (prog arg : WString) (harg : arg = "-l" ∨ arg = "/l") (hs : StartsUp host)
    (hstr : ∀ dev ∈ enumerated host.CoCreateInstance_MMDeviceEnumerator.2,
      readable dev = true →
        (PropVariant.pwszVal dev.OpenPropertyStore.2.GetValue.2).isSome = true)
    (hdistinct : (((enumerated host.CoCreateInstance_MMDeviceEnumerator.2).filter
      readable).map (fun dev => dev.GetId.2)).Nodup)
    (hempty : getDefaultDeviceId host.CoCreateInstance_MMDeviceEnumerator.2 ≠ "" ∨
      ((enumerated host.CoCreateInstance_MMDeviceEnumerator.2).filter
        (fun dev => !readable dev || dev.GetId.2 == "")).length ≤ 1) :
    ∃ marked : Option Nat,
      wmain host [prog, arg] =
        (wcoutWrite host.wcout_narrow {} (String.join
          ((buildInfos host.CoCreateInstance_MMDeviceEnumerator.2).enum.map fun p =>
            toString p.1 ++ ": " ++ p.2.name ++
              (if marked = some p.1 then " [default]" else "") ++ "\n")), .returned 0) ∧
      ∀ k : Nat, marked = some k →
        ∃ a : DeviceInfo, (buildInfos host.CoCreateInstance_MMDeviceEnumerator.2)[k]? = some a ∧
          a.id = getDefaultDeviceId host.CoCreateInstance_MMDeviceEnumerator.2 := by
  have hen := enumerate_eq _ hstr
  have hc : (enumerate host.CoCreateInstance_MMDeviceEnumerator.2).nullName = false := by
    rw [hen]
  have hw := wmain_list host prog arg harg hs hc
  have hcount : (buildInfos host.CoCreateInstance_MMDeviceEnumerator.2).countP
      (fun d => d.id == getDefaultDeviceId host.CoCreateInstance_MMDeviceEnumerator.2) ≤ 1 := by
    have hb : buildInfos host.CoCreateInstance_MMDeviceEnumerator.2 =
        (enumerated host.CoCreateInstance_MMDeviceEnumerator.2).map (fun dev =>
          if readable dev = true then
            ({ name := friendlyNameOf dev, id := dev.GetId.2 } : DeviceInfo)
          else { name := "", id := "" }) := by
      unfold buildInfos
      rw [hen]
    rw [hb]
    exact countP_default_le_one _ _ hdistinct hempty
  generalize buildInfos host.CoCreateInstance_MMDeviceEnumerator.2 = infos at hw hcount ⊢
  generalize getDefaultDeviceId host.CoCreateInstance_MMDeviceEnumerator.2 = dflt
    at hw hcount ⊢
  by_cases hex : ∃ (k : Nat) (a : DeviceInfo), infos[k]? = some a ∧ a.id = dflt
  · obtain ⟨k, a, hk, ha⟩ := hex
    refine ⟨some k, ?_, ?_⟩
    · rw [hw]
      congr 3
      apply List.map_congr_left
      intro p hp
      have hp2 : infos[p.1]? = some p.2 := List.mem_enum_iff_getElem?.mp hp
      have hiff : p.2.id = dflt ↔ some k = some p.1 := by
        constructor
        · intro hpd
          have := countP_le_one_index_unique (fun d : DeviceInfo => d.id == dflt) infos hcount
            k p.1 a p.2 hk hp2 (by simp [ha]) (by simp [hpd])
          rw [this]
        · intro hkp
          have hkp2 : k = p.1 := Option.some.inj hkp
          rw [← hkp2, hk] at hp2
          rw [← Option.some.inj hp2]
          exact ha
      by_cases hpd : p.2.id = dflt
      · simp [hpd, hiff.mp hpd]
      · have : ¬ some k = some p.1 := fun h => hpd (hiff.mpr h)
        simp [hpd, this]
    · intro k2 hk2
      have : k = k2 := Option.some.inj hk2
      subst this
      exact ⟨a, hk, ha⟩
  · refine ⟨none, ?_, ?_⟩
    · rw [hw]
      congr 3
      apply List.map_congr_left
      intro p hp
      have hp2 : infos[p.1]? = some p.2 := List.mem_enum_iff_getElem?.mp hp
      have hpd : ¬ p.2.id = dflt := fun h => hex ⟨p.1, p.2, hp2, h⟩
      simp [hpd]
    · intro k hk
      cases hk

/-- Claim C8, amended, at the host with two unreadable endpoints and a readable default
endpoint: the marker is written once, at index 2. -/
theorem default_marker_unique_witness :
    ∃ marked : Option Nat,
      wmain ghostsAndHeadphonesHost ["switch", "-l"] =
        (wcoutWrite ghostsAndHeadphonesHost.wcout_narrow {} (String.join
          ((buildInfos ghostsAndHeadphonesHost.CoCreateInstance_MMDeviceEnumerator.2).enum.map
            fun p => toString p.1 ++ ": " ++ p.2.name ++
              (if marked = some p.1 then " [default]" else "") ++ "\n")), .returned 0) ∧
      ∀ k : Nat, marked = some k →
        ∃ a : DeviceInfo,
          (buildInfos ghostsAndHeadphonesHost.CoCreateInstance_MMDeviceEnumerator.2)[k]? =
            some a ∧
          a.id = getDefaultDeviceId ghostsAndHeadphonesHost.CoCreateInstance_MMDeviceEnumerator.2 :=
  default_marker_unique ghostsAndHeadphonesHost "switch" "-l" (Or.inl rfl) ⟨rfl, rfl⟩
    (fun dev _ _ => isSome_string dev) (by decide) (Or.inl (by decide))

end AudioDeviceSwitch
